import Mathlib

/-!
# Verification of the CriticallyStupidBot audio orchestrator

Shallow embedding of the bot's per-channel playback orchestrator:

* a small regular-expression engine (character classes, concatenation,
  alternation, Kleene star) with a Brzozowski-derivative matcher, used to
  embed the JavaScript regex literals of `queued-audio-item.ts`;
* the `QueuedAudioItem` / `PlaylistItem` data model;
* the `ChannelAudioPlayer` state machine (`addToQueue`,
  `checkAndUpdatePlayerState`, `handleStatusChange`, timeouts, `stop`,
  `skip`, `pause`, `resume`, `destroy`);
* the `GuildAudioCommandHandler` command queue and the guild-handler
  registry (`getGuildAudioCommandHandler`, the `play` command flow).

Asynchronous JavaScript is modelled by explicit state passing; the
synchronous part of each event handler is applied at the point the event
is emitted, and deferred (micro-task) continuations are applied in their
real execution order.  Exceptions are modelled by a Boolean "no throw
occurred" flag alongside the state reached when the exception escapes.
-/

namespace CSBot

/-! ## Regular expressions over character classes -/

/-- Regular expressions whose atoms are decidable character classes,
mirroring the constructs appearing in the JavaScript regex literals of
the source (`[...]` classes, `.`, `x?`, `x*`, `x+`, alternation and
concatenation, anchored on both sides). -/
inductive Reg where
  | emp : Reg
  | eps : Reg
  | cls (p : Char → Bool) : Reg
  | alt (r₁ r₂ : Reg) : Reg
  | cat (r₁ r₂ : Reg) : Reg
  | star (r : Reg) : Reg

namespace Reg

/-- Does the regex accept the empty string? -/
def nullable : Reg → Bool
  | emp => false
  | eps => true
  | cls _ => false
  | alt r₁ r₂ => nullable r₁ || nullable r₂
  | cat r₁ r₂ => nullable r₁ && nullable r₂
  | star _ => true

/-- Brzozowski derivative: `dv c r` accepts `s` iff `r` accepts `c :: s`. -/
def dv (c : Char) : Reg → Reg
  | emp => emp
  | eps => emp
  | cls p => if p c then eps else emp
  | alt r₁ r₂ => alt (dv c r₁) (dv c r₂)
  | cat r₁ r₂ => if nullable r₁ then alt (cat (dv c r₁) r₂) (dv c r₂) else cat (dv c r₁) r₂
  | star r => cat (dv c r) (star r)

/-- Anchored (whole-string) matcher by iterated derivatives. -/
def rmatch : Reg → List Char → Bool
  | r, [] => nullable r
  | r, c :: s => rmatch (dv c r) s

@[simp] theorem emp_rmatch (s : List Char) : rmatch emp s = false := by
  induction s with
  | nil => rfl
  | cons c s ih => simpa [rmatch, dv] using ih

theorem eps_rmatch_iff (s : List Char) : rmatch eps s = true ↔ s = [] := by
  cases s with
  | nil => simp [rmatch, nullable]
  | cons c s => simp [rmatch, dv]

theorem cls_rmatch_iff (p : Char → Bool) (s : List Char) :
    rmatch (cls p) s = true ↔ ∃ c, s = [c] ∧ p c = true := by
  cases s with
  | nil =>
    constructor
    · intro h; exact absurd h (by simp [rmatch, nullable])
    · rintro ⟨c, hc, _⟩; cases hc
  | cons c s =>
    have hstep : rmatch (cls p) (c :: s) = rmatch (dv c (cls p)) s := rfl
    rw [hstep]
    by_cases h : p c = true
    · rw [show dv c (cls p) = eps by simp [dv, h], eps_rmatch_iff]
      constructor
      · rintro rfl; exact ⟨c, rfl, h⟩
      · rintro ⟨d, hd, _⟩
        exact (List.cons_eq_cons.mp hd).2
    · rw [show dv c (cls p) = emp by simp [dv, h], emp_rmatch]
      simp only [Bool.false_eq_true, false_iff]
      rintro ⟨d, hd, hpd⟩
      rcases List.cons_eq_cons.mp hd with ⟨h1, -⟩
      rw [h1] at h
      exact h hpd

theorem alt_rmatch_iff (r₁ r₂ : Reg) (s : List Char) :
    rmatch (alt r₁ r₂) s = true ↔ rmatch r₁ s = true ∨ rmatch r₂ s = true := by
  induction s generalizing r₁ r₂ with
  | nil => simp [rmatch, nullable]
  | cons c s ih => simpa [rmatch, dv] using ih (dv c r₁) (dv c r₂)

theorem cat_rmatch_iff (r₁ r₂ : Reg) (s : List Char) :
    rmatch (cat r₁ r₂) s = true ↔
      ∃ t u, s = t ++ u ∧ rmatch r₁ t = true ∧ rmatch r₂ u = true := by
  induction s generalizing r₁ r₂ with
  | nil =>
    simp only [rmatch, nullable, Bool.and_eq_true]
    constructor
    · rintro ⟨h₁, h₂⟩
      exact ⟨[], [], rfl, by simpa [rmatch] using h₁, by simpa [rmatch] using h₂⟩
    · rintro ⟨t, u, h, h₁, h₂⟩
      rcases List.append_eq_nil.mp h.symm with ⟨ht, hu⟩
      subst ht; subst hu
      exact ⟨by simpa [rmatch] using h₁, by simpa [rmatch] using h₂⟩
  | cons c s ih =>
    rw [rmatch]
    simp only [dv]
    by_cases hn : nullable r₁ = true
    · rw [hn, if_pos rfl, alt_rmatch_iff, ih]
      constructor
      · rintro (⟨t, u, h, h₁, h₂⟩ | h)
        · exact ⟨c :: t, u, by simp [h], by simpa [rmatch] using h₁, h₂⟩
        · exact ⟨[], c :: s, rfl, by simpa [rmatch] using hn, h⟩
      · rintro ⟨t, u, h, h₁, h₂⟩
        cases t with
        | nil =>
          right
          simp only [List.nil_append] at h
          rw [← h] at h₂
          exact h₂
        | cons b t =>
          left
          simp only [List.cons_append, List.cons.injEq] at h
          refine ⟨t, u, h.2, ?_, h₂⟩
          rw [rmatch] at h₁
          rw [h.1]
          exact h₁
    · rw [if_neg hn, ih]
      constructor
      · rintro ⟨t, u, h, h₁, h₂⟩
        exact ⟨c :: t, u, by simp [h], by simpa [rmatch] using h₁, h₂⟩
      · rintro ⟨t, u, h, h₁, h₂⟩
        cases t with
        | nil =>
          rw [rmatch] at h₁
          simp [h₁] at hn
        | cons b t =>
          simp only [List.cons_append, List.cons.injEq] at h
          refine ⟨t, u, h.2, ?_, h₂⟩
          rw [rmatch] at h₁
          rw [h.1]
          exact h₁

@[simp] theorem star_rmatch_nil (r : Reg) : rmatch (star r) [] = true := rfl

theorem star_rmatch_append (r : Reg) (t u : List Char)
    (ht : rmatch r t = true) (hu : rmatch (star r) u = true) :
    rmatch (star r) (t ++ u) = true := by
  cases t with
  | nil => simpa using hu
  | cons c t =>
    show rmatch (star r) (c :: (t ++ u)) = true
    rw [rmatch]
    simp only [dv]
    rw [cat_rmatch_iff]
    exact ⟨t, u, rfl, by simpa [rmatch] using ht, hu⟩

/-- A string each of whose characters matches the class `p` is accepted
by `star (cls p)`. -/
theorem star_cls_rmatch (p : Char → Bool) (s : List Char)
    (h : ∀ c ∈ s, p c = true) : rmatch (star (cls p)) s = true := by
  induction s with
  | nil => simp
  | cons c s ih =>
    have := star_rmatch_append (cls p) [c] s
      ((cls_rmatch_iff p [c]).mpr ⟨c, rfl, h c (by simp)⟩)
      (ih fun d hd => h d (by simp [hd]))
    simpa using this

/-- Single literal character, written `c` in the regex. -/
def chr (c : Char) : Reg := cls (fun x => x == c)

/-- `r?` -/
def opt (r : Reg) : Reg := alt eps r

/-- `r+` -/
def pls (r : Reg) : Reg := cat r (star r)

/-- Literal character sequence. -/
def lit : List Char → Reg
  | [] => eps
  | c :: s => cat (chr c) (lit s)

/-- Literal string. -/
def litS (s : String) : Reg := lit s.data

theorem lit_rmatch_iff (t s : List Char) : rmatch (lit t) s = true ↔ s = t := by
  induction t generalizing s with
  | nil => simp [lit, eps_rmatch_iff]
  | cons c t ih =>
    simp only [lit, cat_rmatch_iff]
    constructor
    · rintro ⟨u, v, h, h₁, h₂⟩
      rcases (cls_rmatch_iff _ u).mp h₁ with ⟨d, hu, hd⟩
      have hdc : d = c := by simpa using hd
      subst hu; subst hdc
      rw [ih] at h₂
      simp [h, h₂]
    · rintro rfl
      exact ⟨[c], t, rfl, (cls_rmatch_iff _ [c]).mpr ⟨c, rfl, by simp⟩, (ih t).mpr rfl⟩

theorem pls_rmatch_of (r : Reg) (t u : List Char)
    (ht : rmatch r t = true) (hu : rmatch (star r) u = true) :
    rmatch (pls r) (t ++ u) = true := by
  rw [pls, cat_rmatch_iff]
  exact ⟨t, u, rfl, ht, hu⟩

end Reg

/-! ## The JavaScript regex literals of `queued-audio-item.ts`

JavaScript `test` with `^ ... $` and no `m` flag is whole-string
matching; `.` matches any character except the four ECMAScript line
terminators; a negated class `[^...]` matches any character (including
line terminators) not listed. -/

/-- ECMAScript `.`: any character except LF, CR, U+2028, U+2029. -/
def jsDot (c : Char) : Bool :=
  !(c == Char.ofNat 10 || c == Char.ofNat 13 ||
    c == Char.ofNat 8232 || c == Char.ofNat 8233)

/-- ECMAScript `\w`: `[A-Za-z0-9_]`. -/
def jsWord (c : Char) : Bool :=
  (Char.ofNat 97 ≤ c && c ≤ Char.ofNat 122) ||
  (Char.ofNat 65 ≤ c && c ≤ Char.ofNat 90) ||
  (Char.ofNat 48 ≤ c && c ≤ Char.ofNat 57) || c == Char.ofNat 95

/-- The class `[\w\-]`. -/
def wordDash (c : Char) : Bool := jsWord c || c == Char.ofNat 45

/-- The class `[\w\-._~:/?#[\]@!$&'()*+,;=]` of `isValidUrl`. -/
def urlPathChar (c : Char) : Bool :=
  jsWord c || (String.mk [Char.ofNat 45, Char.ofNat 46, Char.ofNat 95,
    Char.ofNat 126, Char.ofNat 58, Char.ofNat 47, Char.ofNat 63,
    Char.ofNat 35, Char.ofNat 91, Char.ofNat 93, Char.ofNat 64,
    Char.ofNat 33, Char.ofNat 36, Char.ofNat 38, Char.ofNat 39,
    Char.ofNat 40, Char.ofNat 41, Char.ofNat 42, Char.ofNat 43,
    Char.ofNat 44, Char.ofNat 59, Char.ofNat 61]).data.contains c

/-- The negated class `[^#\&\?]` of the playlist regex. -/
def notHashAmpQ (c : Char) : Bool :=
  !(c == Char.ofNat 35 || c == Char.ofNat 38 || c == Char.ofNat 63)

open Reg in
/-- `(https?:\/\/)?` -/
def schemeReg : Reg := opt (cat (litS "http") (cat (opt (chr (Char.ofNat 115))) (litS "://")))

open Reg in
/-- `(www\.)?` -/
def wwwReg : Reg := opt (litS "www.")

open Reg in
/-- `(youtube\.com|youtu\.?be)` -/
def hostReg : Reg :=
  alt (litS "youtube.com") (cat (litS "youtu") (cat (opt (chr (Char.ofNat 46))) (litS "be")))

open Reg in
/-- The shared head `^(https?:\/\/)?(www\.)?(youtube\.com|youtu\.?be)\/`
of the two YouTube regexes. -/
def ytHead : Reg := cat schemeReg (cat wwwReg (cat hostReg (chr (Char.ofNat 47))))

open Reg in
/-- `/^(https?:\/\/)?(www\.)?(youtube\.com|youtu\.?be)\/.+$/` -/
def youtubeRegex : Reg := cat ytHead (pls (cls jsDot))

open Reg in
/-- `/^(https?:\/\/)?(www\.)?(youtube\.com|youtu\.?be)\/.*(list=)([^#\&\?]*).+$/` -/
def playlistRegex : Reg :=
  cat ytHead
    (cat (star (cls jsDot))
      (cat (litS "list=") (cat (star (cls notHashAmpQ)) (pls (cls jsDot)))))

open Reg in
/-- `/^(https?:\/\/)?([\w\-]+\.)+[\w\-]+(\/[\w\-._~:/?#[\]@!$&'()*+,;=]*)?$/` -/
def validUrlRegex : Reg :=
  cat schemeReg
    (cat (pls (cat (pls (cls wordDash)) (chr (Char.ofNat 46))))
      (cat (pls (cls wordDash))
        (opt (cat (chr (Char.ofNat 47)) (star (cls urlPathChar))))))

/-- `QueuedAudioItem.isYoutubeUrl` (identical regex in every source variant). -/
def isYoutubeUrlStr (s : String) : Bool := Reg.rmatch youtubeRegex s.data

/-- `QueuedAudioItem.isYoutubePlaylist` (identical regex in every source variant). -/
def isYoutubePlaylistStr (s : String) : Bool := Reg.rmatch playlistRegex s.data

/-- The static `QueuedAudioItem.isValidUrl` regex of the playlist-capable
variant of `queued-audio-item.ts` (used by `src/commands/audio.ts`). -/
def isValidUrlRegexStr (s : String) : Bool := Reg.rmatch validUrlRegex s.data

example : isYoutubePlaylistStr "youtube.com/list=ab" = true := by decide
example : isYoutubeUrlStr "youtube.com/list=ab" = true := by decide
example : isYoutubeUrlStr "https://youtu.be/a" = true := by decide
example : isYoutubePlaylistStr "https://youtu.be/a" = false := by decide
example : isValidUrlRegexStr "x" = false := by decide
example : isValidUrlRegexStr "https://youtu.be/a" = true := by decide

/-! ## Data model: `QueuedAudioItem` (playlist-capable variant) and friends

`src/audio/channel-audio-player.ts` consumes the `QueuedAudioItem` variant
that exposes `isPlaylist`, `playlistItems` and `playlistItemCount`
(`src/unnamed/part_003`).  Presentation-only metadata (title, uploader,
view count, …) does not influence any claim and is omitted. -/

/-- One entry of the `playlistItems` array (`PlaylistItem` interface of
`part_003`). -/
structure PlaylistEntry where
  url : String
  title : String
  duration : Nat
  uploader : String
  playlist_index : Nat
deriving DecidableEq

instance : Inhabited PlaylistEntry := ⟨⟨"", "", 0, "", 0⟩⟩

/-- `QueuedAudioItem` (playlist-capable variant, `part_003`). -/
structure QueuedAudioItem where
  UserInputUrl : String
  OutputStreamUrl : Option String
  timestamp : Nat
  playlistItems : List PlaylistEntry
deriving DecidableEq

namespace QueuedAudioItem

/-- `get isValidUrl` of `part_003`: the URL starts with `http://` or
`https://` (`String.startsWith`, expressed on the character lists). -/
def isValidUrl (i : QueuedAudioItem) : Bool :=
  "http://".data.isPrefixOf i.UserInputUrl.data ||
  "https://".data.isPrefixOf i.UserInputUrl.data

/-- `get isYoutubeUrl`. -/
def isYoutubeUrl (i : QueuedAudioItem) : Bool := isYoutubeUrlStr i.UserInputUrl

/-- `get isYoutubePlaylist`. -/
def isYoutubePlaylist (i : QueuedAudioItem) : Bool := isYoutubePlaylistStr i.UserInputUrl

/-- `get isPlaylist` (alias for `isYoutubePlaylist`). -/
def isPlaylist (i : QueuedAudioItem) : Bool := i.isYoutubePlaylist

/-- `get playlistItemCount`. -/
def playlistItemCount (i : QueuedAudioItem) : Nat := i.playlistItems.length

end QueuedAudioItem

/-! ## `ChannelAudioPlayer` (`src/audio/channel-audio-player.ts`)

State machine model.  The `@discordjs/voice` `AudioPlayer` is folded into
the state as `status`; `player.play` / `player.stop` emit synchronous
`stateChange` events whose handler (`onAudioStatusChange`) runs
`handleStatusChange` immediately and schedules
`checkAndUpdatePlayerState` as a micro-task; those deferred calls are
applied at their real execution point (they are no-ops whenever the
status is `Playing` or `Paused`).  `setTimeout` / `clearTimeout` are
modelled by a list of armed timers plus the `currentTimeout` handle.
Ghost fields (`played`, `currentHistory`) record observations and are
never read by the model. -/

inductive AudioPlayerStatus where
  | Idle | Playing | Paused | Buffering | AutoPaused
deriving DecidableEq

inductive TimeoutType where
  | idle | pause
deriving DecidableEq

/-- An armed `setTimeout` timer. -/
structure PendingTimer where
  id : Nat
  type : TimeoutType
  ms : Nat
deriving DecidableEq

def IDLE_TIMEOUT_MS : Nat := 5 * 60 * 1000
def PAUSE_TIMEOUT_MS : Nat := 10 * 60 * 1000

structure ChannelAudioPlayer where
  playQueue : List QueuedAudioItem
  playlistIndex : Nat
  currentItem : Option QueuedAudioItem
  currentItemChild : Option QueuedAudioItem
  nextItemChild : Option QueuedAudioItem
  status : AudioPlayerStatus
  /-- `connection.state.status === "ready"`. -/
  connectionReady : Bool
  /-- The armed timers of the JavaScript runtime. -/
  pendingTimers : List PendingTimer
  /-- The `currentTimeout` handle held by the class. -/
  currentTimeout : Option PendingTimer
  nextTimerId : Nat
  /-- Ghost: items handed to `playAudio`/`player.play`, in order. -/
  played : List QueuedAudioItem
  /-- Ghost: successive values assigned to `currentItem` from the queue
  (`this.currentItem = nextItem`), in order. -/
  currentHistory : List QueuedAudioItem
deriving DecidableEq

namespace ChannelAudioPlayer

/-- State of a freshly constructed player whose voice connection is ready. -/
def initState : ChannelAudioPlayer :=
  { playQueue := [], playlistIndex := 0, currentItem := none,
    currentItemChild := none, nextItemChild := none,
    status := .Idle, connectionReady := true,
    pendingTimers := [], currentTimeout := none, nextTimerId := 0,
    played := [], currentHistory := [] }

/-- `clearInactivityTimeout`. -/
def clearInactivityTimeout (s : ChannelAudioPlayer) : ChannelAudioPlayer :=
  match s.currentTimeout with
  | none => s
  | some t =>
    { s with pendingTimers := s.pendingTimers.filter (fun x => x.id ≠ t.id),
             currentTimeout := none }

/-- `setInactivityTimeout`: clears any existing timeout, on the idle path
also resets `currentItem`/`currentItemChild`/`playlistIndex`, then arms a
fresh timer. -/
def setInactivityTimeout (type : TimeoutType) (s : ChannelAudioPlayer) :
    ChannelAudioPlayer :=
  let s := clearInactivityTimeout s
  let s := if type = .idle then
      { s with currentItem := none, currentItemChild := none, playlistIndex := 0 }
    else s
  let t : PendingTimer :=
    ⟨s.nextTimerId, type, if type = .idle then IDLE_TIMEOUT_MS else PAUSE_TIMEOUT_MS⟩
  { s with pendingTimers := s.pendingTimers ++ [t], currentTimeout := some t,
           nextTimerId := s.nextTimerId + 1 }

/-- The condition
`!currentItem || !currentItem.isPlaylist || playlistIndex >= currentItem.playlistItemCount`
shared by `checkAndUpdatePlayerState`, `handleStatusChange` and `skip`. -/
def noPlaylistRemainder (s : ChannelAudioPlayer) : Bool :=
  match s.currentItem with
  | none => true
  | some ci => !ci.isPlaylist || decide (ci.playlistItemCount ≤ s.playlistIndex)

/-- `handleStatusChange`. -/
def handleStatusChange (status : AudioPlayerStatus) (s : ChannelAudioPlayer) :
    ChannelAudioPlayer :=
  match status with
  | .Idle =>
    if s.playQueue.isEmpty && noPlaylistRemainder s then
      setInactivityTimeout .idle s
    else clearInactivityTimeout s
  | .Paused => setInactivityTimeout .pause s
  | .Playing => clearInactivityTimeout s
  | _ => clearInactivityTimeout s

/-- `playAudio`.  Throws (`false`) when the item has no output stream
URL.  When the player is already `Playing`/`Paused`, `player.stop()` is
issued first; its synchronous `stateChange` handler runs
`handleStatusChange Idle` (the deferred `checkAndUpdatePlayerState` is a
no-op because the status is `Playing` again by the time it runs).  Then
`player.play` transitions the player to `Playing` and its handler clears
the inactivity timeout. -/
def playAudio (s : ChannelAudioPlayer) (item : QueuedAudioItem) :
    ChannelAudioPlayer × Bool :=
  match item.OutputStreamUrl with
  | none => (s, false)
  | some _ =>
    let s := if s.status = .Playing ∨ s.status = .Paused then
        handleStatusChange .Idle { s with status := .Idle }
      else s
    let s := handleStatusChange .Playing
      { s with status := .Playing, played := s.played ++ [item] }
    (s, true)

end ChannelAudioPlayer

/-- The external `QueuedAudioItem.createFromUrl(url, timestamp)` used to
resolve playlist children (yt-dlp); its outcome is a parameter of the
model. -/
abbrev ChildResolver := String → Nat → QueuedAudioItem

namespace ChannelAudioPlayer

/-- `await`-sequencing under exceptions: if the first call threw, the
exception propagates (skipping the continuation); otherwise the
continuation runs on the state it produced. -/
def andThenOk (res : ChannelAudioPlayer × Bool)
    (g : ChannelAudioPlayer → ChannelAudioPlayer × Bool) :
    ChannelAudioPlayer × Bool :=
  match res with
  | (s, false) => (s, false)
  | (s, true) => g s

/-- Lines 211–232 of `checkAndUpdatePlayerState`: pop the head of
`playQueue`, make it current and start playback (resolving the first two
playlist children when the item is a playlist).  The `Bool` is the
"no throw" flag of the enclosing call. -/
def popNext (resolve : ChildResolver) (s : ChannelAudioPlayer) :
    ChannelAudioPlayer × Bool :=
  match s.playQueue with
  | [] => (s, true)
  | next :: rest =>
    let s := { s with playQueue := rest, currentItem := some next,
                      currentHistory := s.currentHistory ++ [next] }
    if next.isPlaylist then
      let s := { s with playlistIndex := 0 }
      let child := resolve (next.playlistItems.getD 0 default).url next.timestamp
      let s := { s with currentItemChild := some child }
      andThenOk (playAudio s child) fun s =>
        if next.playlistItemCount > 1 then
          let nc := resolve (next.playlistItems.getD 1 default).url next.timestamp
          ({ s with nextItemChild := some nc }, true)
        else (s, true)
    else
      let s := { s with currentItemChild := none, playlistIndex := 0 }
      playAudio s next

/-- `checkAndUpdatePlayerState`.  Returns the state reached together with
the "no throw" flag (an exception escaping `playAudio` propagates out and
skips the remaining statements, keeping the mutations made so far). -/
def checkAndUpdatePlayerState (resolve : ChildResolver) (s : ChannelAudioPlayer) :
    ChannelAudioPlayer × Bool :=
  if s.playQueue.isEmpty && noPlaylistRemainder s then (s, true)
  else if s.status = .Playing ∨ s.status = .Paused then (s, true)
  else if !s.connectionReady then (s, true)
  else if s.status = .Idle then
    match s.currentItem with
    | some ci =>
      if ci.isPlaylist then
        let s := { s with playlistIndex := s.playlistIndex + 1 }
        if s.playlistIndex < ci.playlistItems.length then
          let child := match s.nextItemChild with
            | some nc => nc
            | none => resolve (ci.playlistItems.getD s.playlistIndex default).url ci.timestamp
          let s := { s with currentItemChild := some child, nextItemChild := none }
          andThenOk (playAudio s child) fun s =>
            if s.playlistIndex + 1 < ci.playlistItems.length then
              let nc := resolve (ci.playlistItems.getD (s.playlistIndex + 1) default).url
                ci.timestamp
              ({ s with nextItemChild := some nc }, true)
            else (s, true)
        else popNext resolve s
      else popNext resolve s
    | none => popNext resolve s
  else (s, true)

/-- `player.stop()` (or a natural track end): the player transitions to
`Idle`; `onAudioStatusChange` runs `handleStatusChange Idle`
synchronously and then `checkAndUpdatePlayerState`. -/
def playerStopEmit (resolve : ChildResolver) (s : ChannelAudioPlayer) :
    ChannelAudioPlayer × Bool :=
  let s := handleStatusChange .Idle { s with status := .Idle }
  checkAndUpdatePlayerState resolve s

/-- `addToQueue`: throws on an invalid URL, otherwise pushes the item and
runs `checkAndUpdatePlayerState`. -/
def addToQueue (resolve : ChildResolver) (item : QueuedAudioItem)
    (s : ChannelAudioPlayer) : ChannelAudioPlayer × Bool :=
  if !item.isValidUrl then (s, false)
  else
    let s := { s with playQueue := s.playQueue ++ [item] }
    checkAndUpdatePlayerState resolve s

/-- `stop`: no-op (plus a notification) when the player is already idle;
otherwise clears the queue and the current items and stops the player. -/
def stop (resolve : ChildResolver) (s : ChannelAudioPlayer) :
    ChannelAudioPlayer × Bool :=
  if s.status = .Idle then (s, true)
  else
    let s := { s with playQueue := [], currentItem := none,
                      currentItemChild := none, nextItemChild := none,
                      playlistIndex := 0 }
    playerStopEmit resolve s

/-- `skip`: no-op when there is nothing to skip; for a playlist skip
(`skipItemChild = false`) jumps the playlist index past the end, then
stops the player (the emitted `Idle` handler advances playback). -/
def skip (resolve : ChildResolver) (skipItemChild : Bool)
    (s : ChannelAudioPlayer) : ChannelAudioPlayer × Bool :=
  if s.playQueue.isEmpty && (!skipItemChild || noPlaylistRemainder s) then (s, true)
  else
    let newIndex : Nat := match s.currentItem with
      | some ci => if ci.isPlaylist then ci.playlistItemCount + 1 else 0
      | none => 0
    let s := if !skipItemChild then
        { s with playlistIndex := newIndex, nextItemChild := none }
      else s
    playerStopEmit resolve s

/-- `pause`: only acts when the player is `Playing`. -/
def pause (s : ChannelAudioPlayer) : ChannelAudioPlayer :=
  if s.status ≠ .Playing then s
  else handleStatusChange .Paused { s with status := .Paused }

/-- `resume`: only acts when the player is `Paused`. -/
def resume (s : ChannelAudioPlayer) : ChannelAudioPlayer :=
  if s.status ≠ .Paused then s
  else handleStatusChange .Playing { s with status := .Playing }

/-- `destroy`: clears the timeout, stops the player when it is playing or
paused (the emitted handler runs against the still-unchanged queue),
disconnects the voice connection and clears the queue. -/
def destroy (s : ChannelAudioPlayer) : ChannelAudioPlayer :=
  let s := clearInactivityTimeout s
  let s := if s.status = .Playing ∨ s.status = .Paused then
      handleStatusChange .Idle { s with status := .Idle }
    else s
  { s with connectionReady := false, playQueue := [] }

/-- External events driving one `ChannelAudioPlayer`. -/
inductive PlayerEvent where
  /-- A `play` command calling `addToQueue`. -/
  | enqueue (item : QueuedAudioItem)
  /-- The transport reports that the current resource ended. -/
  | trackEnd
  /-- The voice connection moves into (`true`) or out of (`false`) the
  `ready` state without disconnecting; `onVoiceStatusChange` runs
  `checkAndUpdatePlayerState`. -/
  | connSet (ready : Bool)
  | stopCmd
  | skipCmd (skipItemChild : Bool)
  | pauseCmd
  | resumeCmd
  /-- The armed inactivity timer fires: `closeConnectionCallback`
  destroys the session. -/
  | timerFire

def step (resolve : ChildResolver) (s : ChannelAudioPlayer) :
    PlayerEvent → ChannelAudioPlayer
  | .enqueue item => (addToQueue resolve item s).1
  | .trackEnd => if s.status = .Playing then (playerStopEmit resolve s).1 else s
  | .connSet b =>
    (checkAndUpdatePlayerState resolve { s with connectionReady := b }).1
  | .stopCmd => (stop resolve s).1
  | .skipCmd b => (skip resolve b s).1
  | .pauseCmd => pause s
  | .resumeCmd => resume s
  | .timerFire =>
    match s.currentTimeout with
    | some _ => destroy s
    | none => s

/-- Run a sequence of events against a fresh player. -/
def run (resolve : ChildResolver) (evs : List PlayerEvent) : ChannelAudioPlayer :=
  evs.foldl (step resolve) initState

end ChannelAudioPlayer

/-- A resolver whose outcome is irrelevant (no playlist item is ever
enqueued in the concrete scenarios below). -/
def trivialResolver : ChildResolver := fun url ts => ⟨url, none, ts, []⟩

/-- A concrete valid single-track item with a resolved stream URL. -/
def trackA : QueuedAudioItem := ⟨"https://youtu.be/a", some "http://s", 0, []⟩

/-- A second concrete valid single-track item. -/
def trackB : QueuedAudioItem := ⟨"https://youtu.be/b", some "http://t", 0, []⟩

section scratch
open ChannelAudioPlayer PlayerEvent
example : (run trivialResolver [enqueue trackA]).status = .Playing := by decide
example : (run trivialResolver [enqueue trackA]).currentItem = some trackA := by decide
example : (run trivialResolver [enqueue trackA, trackEnd]).pendingTimers.length = 1 := by decide
example :
    (run trivialResolver [enqueue trackA, trackEnd, connSet false, enqueue trackB]).pendingTimers.length = 1 := by
  decide
example : (run trivialResolver [connSet false, enqueue trackA]).playQueue = [trackA] := by decide
example : (run trivialResolver [connSet false, enqueue trackA]).status = .Idle := by decide
end scratch

/-! ## Field-preservation lemmas for the player operations -/

namespace ChannelAudioPlayer

@[simp] theorem clear_playQueue (s : ChannelAudioPlayer) :
    (clearInactivityTimeout s).playQueue = s.playQueue := by
  unfold clearInactivityTimeout; cases s.currentTimeout <;> rfl

@[simp] theorem clear_currentHistory (s : ChannelAudioPlayer) :
    (clearInactivityTimeout s).currentHistory = s.currentHistory := by
  unfold clearInactivityTimeout; cases s.currentTimeout <;> rfl

@[simp] theorem clear_currentItem (s : ChannelAudioPlayer) :
    (clearInactivityTimeout s).currentItem = s.currentItem := by
  unfold clearInactivityTimeout; cases s.currentTimeout <;> rfl

@[simp] theorem set_playQueue (ty : TimeoutType) (s : ChannelAudioPlayer) :
    (setInactivityTimeout ty s).playQueue = s.playQueue := by
  unfold setInactivityTimeout
  cases ty <;> simp

@[simp] theorem set_currentHistory (ty : TimeoutType) (s : ChannelAudioPlayer) :
    (setInactivityTimeout ty s).currentHistory = s.currentHistory := by
  unfold setInactivityTimeout
  cases ty <;> simp

theorem set_currentItem (ty : TimeoutType) (s : ChannelAudioPlayer) :
    (setInactivityTimeout ty s).currentItem = s.currentItem ∨
    (setInactivityTimeout ty s).currentItem = none := by
  unfold setInactivityTimeout
  cases ty <;> simp

theorem handle_playQueue (st : AudioPlayerStatus) (s : ChannelAudioPlayer) :
    (handleStatusChange st s).playQueue = s.playQueue := by
  cases st <;> simp only [handleStatusChange] <;> (try split) <;> simp

theorem handle_currentHistory (st : AudioPlayerStatus) (s : ChannelAudioPlayer) :
    (handleStatusChange st s).currentHistory = s.currentHistory := by
  cases st <;> simp only [handleStatusChange] <;> (try split) <;> simp

theorem handle_currentItem (st : AudioPlayerStatus) (s : ChannelAudioPlayer) :
    (handleStatusChange st s).currentItem = s.currentItem ∨
    (handleStatusChange st s).currentItem = none := by
  cases st <;> simp only [handleStatusChange] <;> (try split) <;>
    first
      | exact set_currentItem _ _
      | simp

theorem playAudio_playQueue (s : ChannelAudioPlayer) (it : QueuedAudioItem) :
    (playAudio s it).1.playQueue = s.playQueue := by
  unfold playAudio
  cases it.OutputStreamUrl <;> simp [handle_playQueue]
  split <;> simp [handle_playQueue]

theorem playAudio_currentHistory (s : ChannelAudioPlayer) (it : QueuedAudioItem) :
    (playAudio s it).1.currentHistory = s.currentHistory := by
  unfold playAudio
  cases it.OutputStreamUrl <;> simp [handle_currentHistory]
  split <;> simp [handle_currentHistory]

theorem playAudio_currentItem (s : ChannelAudioPlayer) (it : QueuedAudioItem) :
    (playAudio s it).1.currentItem = s.currentItem ∨
    (playAudio s it).1.currentItem = none := by
  unfold playAudio
  cases it.OutputStreamUrl
  · simp
  · simp only
    split
    · rcases handle_currentItem .Playing
        { handleStatusChange .Idle { s with status := .Idle } with
            status := .Playing,
            played := (handleStatusChange .Idle { s with status := .Idle }).played ++ [it] } with
        h | h
      · rw [h]
        simpa using handle_currentItem .Idle { s with status := .Idle }
      · right; exact h
    · rcases handle_currentItem .Playing
        { s with status := .Playing, played := s.played ++ [it] } with h | h
      · left; simpa using h
      · right; exact h

/-! ## FIFO order of single-track items (towards C1) -/

/-- States whose queued items and current item are all single tracks. -/
def SingleTrackState (s : ChannelAudioPlayer) : Prop :=
  (∀ i ∈ s.playQueue, i.isPlaylist = false) ∧
  (∀ i, s.currentItem = some i → i.isPlaylist = false)

theorem popNext_spec (r : ChildResolver) (s : ChannelAudioPlayer)
    (h : SingleTrackState s) :
    (popNext r s).1.currentHistory ++ (popNext r s).1.playQueue
        = s.currentHistory ++ s.playQueue ∧
    SingleTrackState (popNext r s).1 := by
  obtain ⟨hq, hc⟩ := h
  rcases hpq : s.playQueue with _ | ⟨next, rest⟩
  · rw [show popNext r s = (s, true) by rw [popNext, hpq]]
    exact ⟨by rw [hpq], hq, hc⟩
  · have hnext : next.isPlaylist = false := hq next (by rw [hpq]; exact List.mem_cons_self _ _)
    have hrest : ∀ i ∈ rest, i.isPlaylist = false :=
      fun i hi => hq i (by rw [hpq]; exact List.mem_cons_of_mem _ hi)
    rw [show popNext r s =
        playAudio { s with playQueue := rest, currentItem := some next,
                           currentHistory := s.currentHistory ++ [next],
                           currentItemChild := none, playlistIndex := 0 } next by
      rw [popNext, hpq]; simp [hnext]]
    refine ⟨?_, ?_, ?_⟩
    · rw [playAudio_currentHistory, playAudio_playQueue]
      simp
    · rw [playAudio_playQueue]
      exact hrest
    · rcases playAudio_currentItem
        { s with playQueue := rest, currentItem := some next,
                 currentHistory := s.currentHistory ++ [next],
                 currentItemChild := none, playlistIndex := 0 } next with hcur | hcur <;>
        rw [hcur]
      · intro i hi
        injection hi with hi
        rw [← hi]; exact hnext
      · intro i hi
        cases hi

theorem check_spec (r : ChildResolver) (s : ChannelAudioPlayer)
    (h : SingleTrackState s) :
    (checkAndUpdatePlayerState r s).1.currentHistory
        ++ (checkAndUpdatePlayerState r s).1.playQueue
        = s.currentHistory ++ s.playQueue ∧
    SingleTrackState (checkAndUpdatePlayerState r s).1 := by
  unfold checkAndUpdatePlayerState
  split
  · exact ⟨rfl, h⟩
  split
  · exact ⟨rfl, h⟩
  split
  · exact ⟨rfl, h⟩
  split
  · rcases hci : s.currentItem with _ | ci
    · exact popNext_spec r s h
    · have : ci.isPlaylist = false := h.2 ci hci
      simp only [this, Bool.false_eq_true, if_false]
      exact popNext_spec r s h
  · exact ⟨rfl, h⟩

theorem playerStopEmit_spec (r : ChildResolver) (s : ChannelAudioPlayer)
    (h : SingleTrackState s) :
    (playerStopEmit r s).1.currentHistory ++ (playerStopEmit r s).1.playQueue
        = s.currentHistory ++ s.playQueue ∧
    SingleTrackState (playerStopEmit r s).1 := by
  unfold playerStopEmit
  have hst : SingleTrackState (handleStatusChange .Idle { s with status := .Idle }) := by
    constructor
    · rw [handle_playQueue]
      exact h.1
    · rcases handle_currentItem .Idle { s with status := .Idle } with hcur | hcur <;> rw [hcur]
      · exact h.2
      · intro i hi; cases hi

  have := check_spec r (handleStatusChange .Idle { s with status := .Idle }) hst
  refine ⟨?_, this.2⟩
  rw [this.1, handle_currentHistory, handle_playQueue]

/-- Events a `play`-only session can produce: valid single-track
enqueues, track-end reports, and connection readiness changes. -/
def isSingleTrackEvent : PlayerEvent → Bool
  | .enqueue i => i.isValidUrl && !i.isPlaylist
  | .trackEnd => true
  | .connSet _ => true
  | _ => false

/-- The items enqueued by a sequence of events, in order. -/
def enqueuedItems (evs : List PlayerEvent) : List QueuedAudioItem :=
  evs.filterMap fun e => match e with | .enqueue i => some i | _ => none

theorem step_fifo (r : ChildResolver) (s : ChannelAudioPlayer) (e : PlayerEvent)
    (h : SingleTrackState s) (he : isSingleTrackEvent e = true) :
    (step r s e).currentHistory ++ (step r s e).playQueue
        = s.currentHistory ++ s.playQueue ++ enqueuedItems [e] ∧
    SingleTrackState (step r s e) := by
  cases e with
  | enqueue i =>
    simp only [isSingleTrackEvent, Bool.and_eq_true, Bool.not_eq_true'] at he
    simp only [step, addToQueue, he.1, Bool.not_true, Bool.false_eq_true, if_false]
    have hst : SingleTrackState { s with playQueue := s.playQueue ++ [i] } := by
      constructor
      · intro j hj
        rcases List.mem_append.mp hj with hj | hj
        · exact h.1 j hj
        · rw [List.mem_singleton.mp hj]
          exact he.2
      · exact h.2
    have := check_spec r { s with playQueue := s.playQueue ++ [i] } hst
    refine ⟨?_, this.2⟩
    rw [this.1]
    simp [enqueuedItems]
  | trackEnd =>
    simp only [step]
    split
    · have := playerStopEmit_spec r s h
      exact ⟨by rw [this.1]; simp [enqueuedItems], this.2⟩
    · exact ⟨by simp [enqueuedItems], h⟩
  | connSet b =>
    simp only [step]
    have hst : SingleTrackState { s with connectionReady := b } := h
    have := check_spec r { s with connectionReady := b } hst
    exact ⟨by rw [this.1]; simp [enqueuedItems], this.2⟩
  | stopCmd => simp [isSingleTrackEvent] at he
  | skipCmd b => simp [isSingleTrackEvent] at he
  | pauseCmd => simp [isSingleTrackEvent] at he
  | resumeCmd => simp [isSingleTrackEvent] at he
  | timerFire => simp [isSingleTrackEvent] at he

theorem foldl_fifo (r : ChildResolver) (evs : List PlayerEvent) :
    ∀ s : ChannelAudioPlayer, SingleTrackState s →
    (∀ e ∈ evs, isSingleTrackEvent e = true) →
    (evs.foldl (step r) s).currentHistory ++ (evs.foldl (step r) s).playQueue
        = s.currentHistory ++ s.playQueue ++ enqueuedItems evs ∧
    SingleTrackState (evs.foldl (step r) s) := by
  induction evs with
  | nil => intro s hs _; exact ⟨by simp [enqueuedItems], hs⟩
  | cons e evs ih =>
    intro s hs hevs
    have he := hevs e (List.mem_cons_self _ _)
    have hstep := step_fifo r s e hs he
    have := ih (step r s e) hstep.2 (fun x hx => hevs x (List.mem_cons_of_mem _ hx))
    refine ⟨?_, this.2⟩
    simp only [List.foldl_cons]
    rw [this.1, hstep.1]
    cases e <;> simp [enqueuedItems, List.filterMap_cons]

/-! ## Timer discipline (towards C5) -/

/-- The armed timers of the runtime are exactly the one tracked by the
class through its `currentTimeout` handle. -/
def TimerInv (s : ChannelAudioPlayer) : Prop :=
  s.pendingTimers = s.currentTimeout.toList

theorem timerInv_init : TimerInv initState := rfl

theorem clear_currentTimeout (s : ChannelAudioPlayer) :
    (clearInactivityTimeout s).currentTimeout = none := by
  unfold clearInactivityTimeout
  rcases hct : s.currentTimeout with _ | t
  · exact hct
  · rfl

theorem clear_pendingTimers (s : ChannelAudioPlayer) (h : TimerInv s) :
    (clearInactivityTimeout s).pendingTimers = [] := by
  unfold TimerInv at h
  unfold clearInactivityTimeout
  rcases hct : s.currentTimeout with _ | t
  · rw [hct] at h; simpa using h
  · rw [hct] at h
    simp only [h, Option.toList_some]
    simp [List.filter]

theorem timerInv_clear (s : ChannelAudioPlayer) (h : TimerInv s) :
    TimerInv (clearInactivityTimeout s) := by
  unfold TimerInv
  rw [clear_currentTimeout, clear_pendingTimers s h]
  rfl

theorem timerInv_set (ty : TimeoutType) (s : ChannelAudioPlayer) (h : TimerInv s) :
    TimerInv (setInactivityTimeout ty s) := by
  unfold TimerInv setInactivityTimeout
  have h1 := clear_pendingTimers s h
  cases ty <;> simp [h1]

theorem timerInv_handle (st : AudioPlayerStatus) (s : ChannelAudioPlayer)
    (h : TimerInv s) : TimerInv (handleStatusChange st s) := by
  cases st <;> simp only [handleStatusChange] <;> (try split) <;>
    first
      | exact timerInv_set _ s h
      | exact timerInv_clear s h

theorem timerInv_playAudio (s : ChannelAudioPlayer) (it : QueuedAudioItem)
    (h : TimerInv s) : TimerInv (playAudio s it).1 := by
  unfold playAudio
  rcases it.OutputStreamUrl with _ | u
  · exact h
  · simp only
    split
    · exact timerInv_handle _ _ (timerInv_handle _ _ h)
    · exact timerInv_handle _ _ h

theorem timerInv_andThenOk (res : ChannelAudioPlayer × Bool)
    (g : ChannelAudioPlayer → ChannelAudioPlayer × Bool)
    (h : TimerInv res.1) (hg : ∀ x, TimerInv x → TimerInv (g x).1) :
    TimerInv (andThenOk res g).1 := by
  rcases res with ⟨s, b⟩
  cases b
  · exact h
  · exact hg s h

theorem timerInv_popNext (r : ChildResolver) (s : ChannelAudioPlayer)
    (h : TimerInv s) : TimerInv (popNext r s).1 := by
  rcases hpq : s.playQueue with _ | ⟨next, rest⟩ <;>
    simp only [popNext, hpq]
  · exact h
  · split
    · refine timerInv_andThenOk _ _ (timerInv_playAudio _ _ h) ?_
      intro x hx
      split
      · exact hx
      · exact hx
    · exact timerInv_playAudio _ _ h

theorem timerInv_check (r : ChildResolver) (s : ChannelAudioPlayer)
    (h : TimerInv s) : TimerInv (checkAndUpdatePlayerState r s).1 := by
  unfold checkAndUpdatePlayerState
  split
  · exact h
  split
  · exact h
  split
  · exact h
  split
  · rcases hci : s.currentItem with _ | ci <;> simp only [hci]
    · exact timerInv_popNext r s h
    · split
      · split
        · refine timerInv_andThenOk _ _ (timerInv_playAudio _ _ h) ?_
          intro x hx
          split
          · exact hx
          · exact hx
        · exact timerInv_popNext r _ h
      · exact timerInv_popNext r s h
  · exact h

theorem timerInv_playerStopEmit (r : ChildResolver) (s : ChannelAudioPlayer)
    (h : TimerInv s) : TimerInv (playerStopEmit r s).1 :=
  timerInv_check r _ (timerInv_handle .Idle _ h)

theorem timerInv_addToQueue (r : ChildResolver) (i : QueuedAudioItem)
    (s : ChannelAudioPlayer) (h : TimerInv s) :
    TimerInv (addToQueue r i s).1 := by
  unfold addToQueue
  split
  · exact h
  · exact timerInv_check r _ h

theorem timerInv_stop (r : ChildResolver) (s : ChannelAudioPlayer)
    (h : TimerInv s) : TimerInv (stop r s).1 := by
  unfold stop
  split
  · exact h
  · exact timerInv_playerStopEmit r _ h

theorem timerInv_skip (r : ChildResolver) (b : Bool) (s : ChannelAudioPlayer)
    (h : TimerInv s) : TimerInv (skip r b s).1 := by
  unfold skip
  split
  · exact h
  · apply timerInv_playerStopEmit
    split
    · exact h
    · exact h

theorem timerInv_pause (s : ChannelAudioPlayer) (h : TimerInv s) :
    TimerInv (pause s) := by
  unfold pause
  split
  · exact h
  · exact timerInv_handle .Paused _ h

theorem timerInv_resume (s : ChannelAudioPlayer) (h : TimerInv s) :
    TimerInv (resume s) := by
  unfold resume
  split
  · exact h
  · exact timerInv_handle .Playing _ h

theorem timerInv_destroy (s : ChannelAudioPlayer) (h : TimerInv s) :
    TimerInv (destroy s) := by
  have h1 := timerInv_clear s h
  rw [show destroy s =
      { (if (clearInactivityTimeout s).status = .Playing ∨
            (clearInactivityTimeout s).status = .Paused then
          handleStatusChange .Idle { clearInactivityTimeout s with status := .Idle }
        else clearInactivityTimeout s) with
        connectionReady := false, playQueue := [] } from rfl]
  split
  · exact timerInv_handle .Idle _ h1
  · exact h1

theorem timerInv_step (r : ChildResolver) (s : ChannelAudioPlayer)
    (e : PlayerEvent) (h : TimerInv s) : TimerInv (step r s e) := by
  cases e with
  | enqueue i => exact timerInv_addToQueue r i s h
  | trackEnd =>
    simp only [step]
    split
    · exact timerInv_playerStopEmit r s h
    · exact h
  | connSet b => exact timerInv_check r _ h
  | stopCmd => exact timerInv_stop r s h
  | skipCmd b => exact timerInv_skip r b s h
  | pauseCmd => exact timerInv_pause s h
  | resumeCmd => exact timerInv_resume s h
  | timerFire =>
    simp only [step]
    rcases s.currentTimeout with _ | t
    · exact h
    · exact timerInv_destroy s h

theorem timerInv_run (r : ChildResolver) (evs : List PlayerEvent) :
    TimerInv (run r evs) := by
  unfold run
  induction evs using List.reverseRecOn with
  | nil => exact timerInv_init
  | append_singleton evs e ih =>
    rw [List.foldl_append]
    exact timerInv_step r _ e ih

theorem clear_nextTimerId (s : ChannelAudioPlayer) :
    (clearInactivityTimeout s).nextTimerId = s.nextTimerId := by
  unfold clearInactivityTimeout
  rcases s.currentTimeout with _ | t <;> rfl

/-- `handleStatusChange Idle` on an exhausted session arms exactly one
idle timer (duration 5 minutes), any previously armed timer having been
cancelled first. -/
theorem handle_idle_arms (s : ChannelAudioPlayer) (hinv : TimerInv s)
    (hq : s.playQueue = []) (hnp : noPlaylistRemainder s = true) :
    (handleStatusChange .Idle s).pendingTimers =
      [⟨s.nextTimerId, .idle, IDLE_TIMEOUT_MS⟩] := by
  have hcond : (s.playQueue.isEmpty && noPlaylistRemainder s) = true := by
    rw [hq, hnp]; rfl
  simp only [handleStatusChange, hcond, if_true]
  unfold setInactivityTimeout
  have h1 := clear_pendingTimers s hinv
  have h2 := clear_nextTimerId s
  simp [h1, h2]

/-- Enqueueing a valid resolved single track while the connection is
ready and the session is idle and exhausted disarms the pending timer:
playback starts and the `Playing` transition clears the timeout. -/
theorem enqueue_disarms_when_ready (r : ChildResolver) (i : QueuedAudioItem)
    (s : ChannelAudioPlayer) (hinv : TimerInv s)
    (hst : s.status = .Idle) (hq : s.playQueue = []) (hci : s.currentItem = none)
    (hready : s.connectionReady = true)
    (hvalid : i.isValidUrl = true) (hsingle : i.isPlaylist = false)
    (hout : i.OutputStreamUrl.isSome = true) :
    (addToQueue r i s).1.pendingTimers = [] := by
  obtain ⟨q, pIdx, cItem, cChild, nChild, st, cReady, pTimers, cTimeout, nId, pl, hist⟩ := s
  simp only at hst hq hci hready hinv
  subst hst hq hci hready
  rcases hout' : i.OutputStreamUrl with _ | u
  · rw [hout'] at hout; simp at hout
  · unfold TimerInv at hinv
    simp only at hinv
    simp only [addToQueue, checkAndUpdatePlayerState, popNext, playAudio,
      handleStatusChange, clearInactivityTimeout, andThenOk,
      hvalid, hsingle, hout', hinv]
    rcases cTimeout with _ | t <;> simp [List.filter, hsingle, hout']

end ChannelAudioPlayer

/-! ## Claim theorems C1, C2, C3, C5 -/

open ChannelAudioPlayer in
/-- C1: for every sequence of `addToQueue` calls with valid single-track
(non-playlist) items — interleaved with track-end reports and
connection-readiness changes — the order in which items leave `playQueue`
and become `currentItem` (recorded in `currentHistory`) equals the order
in which they were enqueued; no item is skipped, duplicated, or
reordered: the consumption history followed by the remaining queue is
exactly the enqueue sequence. -/
theorem C1_fifo_order (r : ChildResolver) (evs : List PlayerEvent)
    (h : ∀ e ∈ evs, isSingleTrackEvent e = true) :
    (run r evs).currentHistory ++ (run r evs).playQueue = enqueuedItems evs := by
  have h0 : SingleTrackState initState := by
    constructor
    · intro i hi; exact absurd hi (List.not_mem_nil i)
    · intro i hi; exact Option.noConfusion hi
  have := foldl_fifo r evs initState h0 h
  simpa [run, initState] using this.1

open ChannelAudioPlayer in
/-- C1 witness: three single-track events, consumed in FIFO order. -/
theorem C1_fifo_order_witness :
    (∀ e ∈ ([.enqueue trackA, .trackEnd, .enqueue trackB] : List PlayerEvent),
        isSingleTrackEvent e = true) ∧
    (run trivialResolver [.enqueue trackA, .trackEnd, .enqueue trackB]).currentHistory ++
        (run trivialResolver [.enqueue trackA, .trackEnd, .enqueue trackB]).playQueue =
      enqueuedItems [.enqueue trackA, .trackEnd, .enqueue trackB] :=
  ⟨by decide, C1_fifo_order trivialResolver _ (by decide)⟩

open ChannelAudioPlayer in
/-- C2 counterexample: a reachable state (the connection lost readiness,
then a track was enqueued) in which the player status is `Idle` while
`playQueue` is non-empty; `stop` takes its early-return branch and leaves
the queue non-empty — refuting "after `stop()` completes the `playQueue`
is empty … regardless of the status the player was in before the
call". -/
theorem C2_stop_counterexample :
    (stop trivialResolver
        (run trivialResolver [.connSet false, .enqueue trackA])).1.playQueue
      = [trackA] := by decide

open ChannelAudioPlayer in
/-- C2 (amended): when the player is `Playing` or `Paused` (any status
other than `Idle`), `stop` empties `playQueue`, clears `currentItem`,
`currentItemChild` and `nextItemChild`, and leaves the player `Idle`;
when the player is already `Idle`, `stop` is a no-op notification and in
particular does not clear a non-empty queue. -/
theorem C2_stop_amended (r : ChildResolver) (s : ChannelAudioPlayer)
    (h : s.status ≠ .Idle) :
    (stop r s).1.playQueue = [] ∧ (stop r s).1.currentItem = none ∧
    (stop r s).1.currentItemChild = none ∧ (stop r s).1.nextItemChild = none ∧
    (stop r s).1.status = .Idle := by
  obtain ⟨q, pIdx, cItem, cChild, nChild, st, cReady, pTimers, cTimeout, nId, pl, hist⟩ := s
  unfold stop
  rw [if_neg h]
  rcases cTimeout with _ | t <;>
    simp [playerStopEmit, handleStatusChange, setInactivityTimeout,
      clearInactivityTimeout, checkAndUpdatePlayerState, noPlaylistRemainder]

open ChannelAudioPlayer in
/-- C2 witness: `stop` on a session that is playing a track. -/
theorem C2_stop_amended_witness :
    (run trivialResolver [.enqueue trackA]).status ≠ .Idle ∧
    ((stop trivialResolver (run trivialResolver [.enqueue trackA])).1.playQueue = [] ∧
     (stop trivialResolver (run trivialResolver [.enqueue trackA])).1.currentItem = none ∧
     (stop trivialResolver (run trivialResolver [.enqueue trackA])).1.currentItemChild = none ∧
     (stop trivialResolver (run trivialResolver [.enqueue trackA])).1.nextItemChild = none ∧
     (stop trivialResolver (run trivialResolver [.enqueue trackA])).1.status = .Idle) :=
  ⟨by decide, C2_stop_amended trivialResolver _ (by decide)⟩

open ChannelAudioPlayer in
/-- C3 counterexample: `skip` (single-track) on a session playing a
track with an empty remaining queue takes the "no items to skip"
early-return branch: the session stays `Playing` with its current item —
refuting "the session ends in `Idle` status with no current item". -/
theorem C3_skip_counterexample :
    (skip trivialResolver true (run trivialResolver [.enqueue trackA])).1.status
        = .Playing ∧
    (skip trivialResolver true (run trivialResolver [.enqueue trackA])).1.currentItem
        = some trackA := by decide

open ChannelAudioPlayer in
/-- C3 (amended): `skip` (single-track) on a session whose remaining
queue is empty and whose current item has no unplayed playlist members is
a no-op — the state (status and current item included) is unchanged and a
"no items to skip" notification is emitted instead. -/
theorem C3_skip_amended (r : ChildResolver) (s : ChannelAudioPlayer)
    (hq : s.playQueue = []) (hnp : noPlaylistRemainder s = true) :
    skip r true s = (s, true) := by
  unfold skip
  rw [if_pos (by rw [hq, hnp]; rfl)]

open ChannelAudioPlayer in
/-- C3 witness: single-track `skip` while playing the last track. -/
theorem C3_skip_amended_witness :
    (run trivialResolver [.enqueue trackA]).playQueue = [] ∧
    noPlaylistRemainder (run trivialResolver [.enqueue trackA]) = true ∧
    skip trivialResolver true (run trivialResolver [.enqueue trackA]) =
      (run trivialResolver [.enqueue trackA], true) :=
  ⟨by decide, by decide, C3_skip_amended trivialResolver _ (by decide) (by decide)⟩

open ChannelAudioPlayer in
/-- C5 counterexample: after a track ends the idle timer is armed; the
voice connection then drops out of readiness and a track is enqueued
before the timer fires — `addToQueue` returns through the
connection-not-ready branch of `checkAndUpdatePlayerState` without any
`Playing` transition, so the timer stays armed, refuting "every enqueue
that occurs before that timer fires disarms it". -/
theorem C5_idle_timer_counterexample :
    isSingleTrackEvent (.enqueue trackB) = true ∧
    (run trivialResolver
        [.enqueue trackA, .trackEnd, .connSet false, .enqueue trackB]).pendingTimers.length
      = 1 := by decide

open ChannelAudioPlayer in
/-- C5 (amended): (1) at most one inactivity timer is ever pending, for
every event sequence; (2) entering `Idle` with an empty queue and no
playlist remainder arms exactly one idle timer of five minutes, any
previously pending timer being cancelled first; (3) an enqueue of a
valid, resolved single track before the timer fires disarms it
**provided the voice connection is ready** — when the connection is not
ready the timer stays armed (see the counterexample). -/
theorem C5_idle_timer_amended :
    (∀ (r : ChildResolver) (evs : List PlayerEvent),
      (run r evs).pendingTimers.length ≤ 1) ∧
    (∀ s : ChannelAudioPlayer, TimerInv s → s.playQueue = [] →
      noPlaylistRemainder s = true →
      (handleStatusChange .Idle s).pendingTimers =
        [⟨s.nextTimerId, .idle, IDLE_TIMEOUT_MS⟩]) ∧
    (∀ (r : ChildResolver) (i : QueuedAudioItem) (s : ChannelAudioPlayer),
      TimerInv s → s.status = .Idle → s.playQueue = [] → s.currentItem = none →
      s.connectionReady = true → i.isValidUrl = true → i.isPlaylist = false →
      i.OutputStreamUrl.isSome = true →
      (addToQueue r i s).1.pendingTimers = []) := by
  refine ⟨?_, handle_idle_arms, enqueue_disarms_when_ready⟩
  intro r evs
  have h := timerInv_run r evs
  unfold TimerInv at h
  rw [h]
  rcases (run r evs).currentTimeout with _ | t <;> simp

open ChannelAudioPlayer in
/-- C5 witness: after `trackEnd` the session is idle and exhausted with
one armed timer; `handleStatusChange Idle` arms exactly one 5-minute
timer there, and a ready-connection enqueue of a resolved track disarms
it. -/
theorem C5_idle_timer_amended_witness :
    (run trivialResolver [.enqueue trackA, .trackEnd]).pendingTimers.length ≤ 1 ∧
    (handleStatusChange .Idle
        (run trivialResolver [.enqueue trackA, .trackEnd])).pendingTimers =
      [⟨(run trivialResolver [.enqueue trackA, .trackEnd]).nextTimerId, .idle,
        IDLE_TIMEOUT_MS⟩] ∧
    (addToQueue trivialResolver trackB
        (run trivialResolver [.enqueue trackA, .trackEnd])).1.pendingTimers = [] :=
  ⟨C5_idle_timer_amended.1 trivialResolver _,
   C5_idle_timer_amended.2.1 _ (by unfold TimerInv; decide) (by decide) (by decide),
   C5_idle_timer_amended.2.2 trivialResolver trackB _ (by unfold TimerInv; decide)
     (by decide) (by decide) (by decide) (by decide) (by decide) (by decide) (by decide)⟩

/-! ## `GuildAudioCommandHandler.addCommandToQueue` (`src/commands/audio.ts`)

The per-guild command queue: `addCommandToQueue` pushes the command and,
when no drain is running, synchronously sets `isCommandRunning` and
becomes the drainer, shifting and awaiting commands one at a time until
the queue is empty; a throw inside a command is caught and logged.  The
cooperative scheduling is modelled by three events: `submit` (the
synchronous prefix of `addCommandToQueue`), `beginStep` (the drain loop
checks its condition and either starts the next command body or, on an
empty queue, exits resetting the flag) and `finishStep` (the awaited
command body returns or its exception is caught).  `executing` is the
multiset of command bodies currently in flight — mutual exclusion is a
proved invariant, not a typing assumption. -/

/-- An opaque queued command: an identity plus whether its body completes
without throwing. -/
structure Cmd where
  id : Nat
  ok : Bool
deriving DecidableEq

/-- The queue-related fields of one `GuildAudioCommandHandler`, plus
observation fields (`executing`, `execLog`). -/
structure GuildCommandQueue where
  commandQueue : List Cmd
  isCommandRunning : Bool
  /-- Ghost: command bodies currently executing. -/
  executing : List Cmd
  /-- Ghost: completed command bodies with their no-throw outcome. -/
  execLog : List (Cmd × Bool)
deriving DecidableEq

inductive QueueEvent where
  | submit (c : Cmd)
  | beginStep
  | finishStep

def stepQ (s : GuildCommandQueue) : QueueEvent → GuildCommandQueue
  | .submit c =>
    let s := { s with commandQueue := s.commandQueue ++ [c] }
    if s.isCommandRunning then s else { s with isCommandRunning := true }
  | .beginStep =>
    if s.isCommandRunning ∧ s.executing = [] then
      match s.commandQueue with
      | [] => { s with isCommandRunning := false }
      | c :: rest => { s with commandQueue := rest, executing := [c] }
    else s
  | .finishStep =>
    match s.executing with
    | [c] => { s with executing := [], execLog := s.execLog ++ [(c, c.ok)] }
    | _ => s

def initQ : GuildCommandQueue := ⟨[], false, [], []⟩

def runQ (evs : List QueueEvent) : GuildCommandQueue := evs.foldl stepQ initQ

/-- The commands submitted by a sequence of events, in order. -/
def submittedCmds (evs : List QueueEvent) : List Cmd :=
  evs.filterMap fun e => match e with | .submit c => some c | _ => none

/-- Drain-loop invariant: completed, in-flight and queued commands parti-
tion the submitted sequence in order; at most one body is in flight; a
cleared flag means nothing is queued or in flight. -/
def QInv (acc : List Cmd) (s : GuildCommandQueue) : Prop :=
  s.execLog.map Prod.fst ++ s.executing ++ s.commandQueue = acc ∧
  s.executing.length ≤ 1 ∧
  (s.isCommandRunning = false → s.commandQueue = [] ∧ s.executing = [])

theorem qInv_init : QInv [] initQ := ⟨rfl, by simp [initQ], fun _ => ⟨rfl, rfl⟩⟩

theorem qInv_step (acc : List Cmd) (s : GuildCommandQueue) (e : QueueEvent)
    (h : QInv acc s) : QInv (acc ++ submittedCmds [e]) (stepQ s e) := by
  obtain ⟨horder, hlen, hflag⟩ := h
  cases e with
  | submit c =>
    simp only [stepQ, submittedCmds, List.filterMap]
    constructor
    · split <;> simp [← horder]
    constructor
    · split <;> simpa using hlen
    · split
      · next hrun =>
        intro hfalse
        rw [show s.isCommandRunning = true by simpa using hrun] at hfalse
        cases hfalse
      · intro hfalse
        simp at hfalse
  | beginStep =>
    simp only [stepQ, submittedCmds, List.filterMap, List.append_nil]
    split
    · next hguard =>
      rcases hq : s.commandQueue with _ | ⟨c, rest⟩ <;> simp only
      · exact ⟨by rw [← horder, hq], hlen, fun _ => ⟨rfl, hguard.2⟩⟩
      · refine ⟨?_, by simp, ?_⟩
        · rw [← horder, hq, hguard.2]
          simp
        · intro hfalse
          rw [show s.isCommandRunning = true from hguard.1] at hfalse
          cases hfalse
    · exact ⟨by simpa using horder, hlen, by simpa using hflag⟩
  | finishStep =>
    simp only [stepQ, submittedCmds, List.filterMap, List.append_nil]
    rcases hex : s.executing with _ | ⟨c, cs⟩
    · exact ⟨by simpa [hex] using horder, hlen, by simpa [hex] using hflag⟩
    · rcases cs with _ | ⟨d, ds⟩
      · simp only
        refine ⟨?_, by simp, ?_⟩
        · rw [← horder, hex]
          simp
        · intro hfalse
          rcases hflag hfalse with ⟨-, hcon⟩
          rw [hex] at hcon
          cases hcon
      · rw [hex] at hlen
        simp at hlen

theorem qInv_runQ (evs : List QueueEvent) : QInv (submittedCmds evs) (runQ evs) := by
  unfold runQ
  induction evs using List.reverseRecOn with
  | nil => exact qInv_init
  | append_singleton evs e ih =>
    rw [List.foldl_append]
    have := qInv_step (submittedCmds evs) _ e ih
    rwa [show submittedCmds evs ++ submittedCmds [e] = submittedCmds (evs ++ [e]) by
      simp [submittedCmds]] at this

/-- Iterated drain-loop turns (condition check + one awaited body). -/
def drainFuel : Nat → GuildCommandQueue → GuildCommandQueue
  | 0, s => s
  | n + 1, s => drainFuel n (stepQ (stepQ s .beginStep) .finishStep)

theorem drain_idle (n : Nat) (s : GuildCommandQueue)
    (hrun : s.isCommandRunning = false) (hex : s.executing = []) :
    drainFuel n s = s := by
  induction n with
  | zero => rfl
  | succ n ih =>
    have hstep : stepQ (stepQ s .beginStep) .finishStep = s := by
      simp [stepQ, hrun, hex]
    rw [drainFuel, hstep, ih]

theorem drain_complete (n : Nat) (acc : List Cmd) (s : GuildCommandQueue)
    (hinv : QInv acc s)
    (hn : s.commandQueue.length + s.executing.length + 1 ≤ n) :
    (drainFuel n s).execLog.map Prod.fst = acc := by
  induction n generalizing acc s with
  | zero => exact absurd hn (by omega)
  | succ n ih =>
    obtain ⟨horder, hlen, hflag⟩ := hinv
    by_cases hrun : s.isCommandRunning = true
    · rcases hex : s.executing with _ | ⟨c, cs⟩
      · rcases hq : s.commandQueue with _ | ⟨c, rest⟩
        · have hstep : stepQ (stepQ s .beginStep) .finishStep =
              { s with isCommandRunning := false } := by
            simp [stepQ, hrun, hex, hq]
          rw [drainFuel, hstep, drain_idle n _ rfl (by simpa using hex)]
          rw [hq, hex] at horder
          simpa using horder
        · have h1 : QInv acc (stepQ s .beginStep) := by
            simpa [submittedCmds] using qInv_step acc s .beginStep ⟨horder, hlen, hflag⟩
          have h2 : QInv acc (stepQ (stepQ s .beginStep) .finishStep) := by
            simpa [submittedCmds] using qInv_step acc _ .finishStep h1
          have hstep : stepQ (stepQ s .beginStep) .finishStep =
              { s with commandQueue := rest, executing := [],
                       execLog := s.execLog ++ [(c, c.ok)] } := by
            simp [stepQ, hrun, hex, hq]
          rw [drainFuel]
          refine ih acc _ h2 ?_
          rw [hstep]
          rw [hq, hex] at hn
          simp only [List.length_cons, List.length_nil] at hn ⊢
          omega
      · have hcs : cs = [] := by
          rw [hex] at hlen
          simp only [List.length_cons] at hlen
          exact List.length_eq_zero.mp (by omega)
        subst hcs
        have h1 : QInv acc (stepQ s .beginStep) := by
          simpa [submittedCmds] using qInv_step acc s .beginStep ⟨horder, hlen, hflag⟩
        have h2 : QInv acc (stepQ (stepQ s .beginStep) .finishStep) := by
          simpa [submittedCmds] using qInv_step acc _ .finishStep h1
        have hstep : stepQ (stepQ s .beginStep) .finishStep =
            { s with executing := [], execLog := s.execLog ++ [(c, c.ok)] } := by
          simp [stepQ, hrun, hex]
        rw [drainFuel]
        refine ih acc _ h2 ?_
        rw [hstep]
        rw [hex] at hn
        simp only [List.length_cons, List.length_nil] at hn ⊢
        omega
    · have hrun' : s.isCommandRunning = false := by
        simpa using hrun
      obtain ⟨hq, hex⟩ := hflag hrun'
      rw [drainFuel]
      have hstep : stepQ (stepQ s .beginStep) .finishStep = s := by
        simp [stepQ, hrun', hex]
      rw [hstep, drain_idle n s hrun' hex]
      rw [hq, hex] at horder
      simpa using horder

/-- C4: for every sequence of `addCommandToQueue` submissions and drain
steps on one `GuildAudioCommandHandler`: (1) at most one submitted
command body is executing at any instant; (2) completed, in-flight and
queued commands partition the submitted commands in submission order (no
command is skipped, duplicated or reordered); (3) letting the drain run
to completion executes every submitted command exactly once in submission
order — a command whose body throws is caught and logged and does not
prevent the remaining queued commands from running (the drain proceeds
identically whatever each command's outcome flag is). -/
theorem C4_command_serializer (evs : List QueueEvent) :
    (runQ evs).executing.length ≤ 1 ∧
    (runQ evs).execLog.map Prod.fst ++ (runQ evs).executing ++ (runQ evs).commandQueue
      = submittedCmds evs ∧
    (drainFuel ((runQ evs).commandQueue.length + (runQ evs).executing.length + 1)
        (runQ evs)).execLog.map Prod.fst = submittedCmds evs := by
  have h := qInv_runQ evs
  exact ⟨h.2.1, h.1, drain_complete _ _ _ h (le_refl _)⟩

/-! ## Guild handler registry (`src/commands/audio.ts`)

`GuildAudioCommandHandlers` is a process-wide `Map` from guild id to
handler, modelled as a function `String → Option Handler`.  Ghost
counters record how many voice connections were opened
(`joinVoiceChannel`) and how many `GuildAudioCommandHandler` objects were
constructed. -/

/-- A constructed `GuildAudioCommandHandler`: its guild, the text channel
it notifies, whether its `ChannelAudioPlayer` was created (constructor
did not throw), and a ghost tag identifying the construction. -/
structure Handler where
  guildId : String
  channelId : String
  hasPlayer : Bool
  tag : Nat
deriving DecidableEq

/-- The `GuildAudioCommandHandlers` map. -/
def HandlerReg := String → Option Handler

def regSet (reg : HandlerReg) (g : String) (h : Handler) : HandlerReg :=
  fun x => if x = g then some h else reg x

def regDel (reg : HandlerReg) (g : String) : HandlerReg :=
  fun x => if x = g then none else reg x

/-- Process-wide state plus ghost effect counters. -/
structure World where
  reg : HandlerReg
  transportsOpened : Nat
  handlersConstructed : Nat

/-- `getGuildAudioCommandHandler`:  reuse a registered handler (updating
its `channelId`); otherwise `joinVoiceChannel` (counted as an opened
transport), wait for readiness — a 15-second timeout rejects the promise
and the exception propagates (`Except.error`) — then construct the
handler and register it only when its `ChannelAudioPlayer` exists. -/
def getGuildAudioCommandHandler (w : World) (guildId? : Option String)
    (channelId : String) (connReady ctorOk : Bool) :
    Except Unit (Option Handler) × World :=
  match guildId? with
  | none => (.ok none, w)
  | some g =>
    match w.reg g with
    | some h =>
      let h' := { h with channelId := channelId }
      (.ok (some h'), { w with reg := regSet w.reg g h' })
    | none =>
      let w := { w with transportsOpened := w.transportsOpened + 1 }
      if !connReady then (.error (), w)
      else
        let h : Handler :=
          { guildId := g, channelId := channelId, hasPlayer := ctorOk,
            tag := w.handlersConstructed }
        let w := { w with handlersConstructed := w.handlersConstructed + 1 }
        if h.hasPlayer then (.ok (some h), { w with reg := regSet w.reg g h })
        else (.ok none, w)

/-- Outcome of one `play` command execution. -/
structure PlayOutcome where
  world : World
  /-- Whether the flow reached `createFromUrl`/`addItemsToQueue`. -/
  itemsEnqueued : Bool

/-- The `play.execute` flow of `src/commands/audio.ts`: obtain (or
create) the handler, then submit one command to its queue — the queue is
empty, so the command runs at once: it looks the handler up again,
validates the locator (`isValidUrl`/`isYoutubeUrl` statics of the
playlist-capable `QueuedAudioItem`), deletes the registry entry on a
malformed locator, and otherwise resolves and enqueues. -/
def playExecute (w : World) (guildId? : Option String) (channelId : String)
    (url : String) (connReady ctorOk : Bool) : PlayOutcome :=
  match getGuildAudioCommandHandler w guildId? channelId connReady ctorOk with
  | (.error _, w) => ⟨w, false⟩
  | (.ok none, w) => ⟨w, false⟩
  | (.ok (some _), w) =>
    match getGuildAudioCommandHandler w guildId? channelId connReady ctorOk with
    | (.error _, w) => ⟨w, false⟩
    | (.ok none, w) => ⟨w, false⟩
    | (.ok (some h2), w) =>
      if !isValidUrlRegexStr url then
        ⟨{ w with reg := regDel w.reg h2.guildId }, false⟩
      else if !isYoutubeUrlStr url then ⟨w, false⟩
      else ⟨w, true⟩

/-! ## Concurrent session creation (towards C9)

Two `play` commands for the same guild run `getGuildAudioCommandHandler`
concurrently; each command is a sequential process whose atomic blocks
are separated by the `await`s of the source: the registry lookup, the
transport opening (`joinVoiceChannel`), and — after the readiness wait —
the construction-and-registration block. -/

inductive RacePc where
  | start
  | checked
  | opened
  | done (result : Option Handler)
deriving DecidableEq

structure RaceState where
  reg : HandlerReg
  transportsOpened : Nat
  handlersConstructed : Nat
  pcA : RacePc
  pcB : RacePc

def raceInit : RaceState := ⟨fun _ => none, 0, 0, .start, .start⟩

/-- One atomic block of process `A` (`who = true`) or `B` (`who = false`),
both executing `getGuildAudioCommandHandler` for guild `g` with a ready
connection and a succeeding constructor. -/
def raceStep (g cid : String) (who : Bool) (s : RaceState) : RaceState :=
  let pc := if who then s.pcA else s.pcB
  let setPc : RaceState → RacePc → RaceState := fun s pc' =>
    if who then { s with pcA := pc' } else { s with pcB := pc' }
  match pc with
  | .start =>
    match s.reg g with
    | some h =>
      let h' := { h with channelId := cid }
      setPc { s with reg := regSet s.reg g h' } (.done (some h'))
    | none => setPc s .checked
  | .checked =>
    setPc { s with transportsOpened := s.transportsOpened + 1 } .opened
  | .opened =>
    let h : Handler := ⟨g, cid, true, s.handlersConstructed⟩
    setPc { s with handlersConstructed := s.handlersConstructed + 1,
                   reg := regSet s.reg g h } (.done (some h))
  | .done _ => s

def runRace (g cid : String) (sched : List Bool) : RaceState :=
  sched.foldl (fun s who => raceStep g cid who s) raceInit

section scratch2
example :
    (playExecute ⟨fun _ => none, 0, 0⟩ (some "g") "c" "x" true true).world.transportsOpened
      = 1 := by decide
example :
    (playExecute ⟨fun _ => none, 0, 0⟩ (some "g") "c" "x" true true).world.reg "g"
      = none := by decide
example :
    (runRace "g" "c" [true, false, true, true, false, false]).transportsOpened = 2 := by
  decide
example :
    (runRace "g" "c" [true, false, true, true, false, false]).pcB
      = .done (some ⟨"g", "c", true, 1⟩) := by decide
example : isYoutubePlaylistStr "youtube.com/list=a\nb" = true := by decide
example : isYoutubeUrlStr "youtube.com/list=a\nb" = false := by decide
end scratch2

/-- C6: if a guild has no live session and Transport Session creation
fails — the voice connection does not become ready within the 15-second
timeout (`connReady = false`, the promise rejection propagating as an
exception) or the `ChannelAudioPlayer` constructor throws
(`ctorOk = false`) — then `getGuildAudioCommandHandler` returns no
session and the registry is left unchanged. -/
theorem C6_failed_creation_registry_unchanged (w : World) (g cid : String)
    (connReady ctorOk : Bool) (habs : w.reg g = none)
    (hfail : connReady = false ∨ ctorOk = false) :
    (getGuildAudioCommandHandler w (some g) cid connReady ctorOk).2.reg = w.reg ∧
    ∀ h : Handler,
      (getGuildAudioCommandHandler w (some g) cid connReady ctorOk).1 ≠ .ok (some h) := by
  unfold getGuildAudioCommandHandler
  simp only [habs]
  rcases hfail with hf | hf
  · subst hf
    simp
  · subst hf
    cases connReady <;> simp

/-- C6 witness: connection timeout on an empty registry. -/
theorem C6_failed_creation_registry_unchanged_witness :
    (getGuildAudioCommandHandler ⟨fun _ => none, 0, 0⟩ (some "g") "c" false true).2.reg
        = (⟨fun _ => none, 0, 0⟩ : World).reg ∧
    ∀ h : Handler,
      (getGuildAudioCommandHandler ⟨fun _ => none, 0, 0⟩ (some "g") "c" false true).1
        ≠ .ok (some h) :=
  C6_failed_creation_registry_unchanged ⟨fun _ => none, 0, 0⟩ "g" "c" false true rfl
    (Or.inl rfl)

/-- C7 counterexample: a `play` command with the malformed locator `"x"`
on a guild with no live session opens one Transport Session and
constructs (and transiently registers) one handler before the locator is
validated — refuting "no Playback Session is created, no Transport
Session is opened … the rejection happens before any session state is
touched". -/
theorem C7_invalid_locator_counterexample :
    (playExecute ⟨fun _ => none, 0, 0⟩ (some "g") "c" "x" true true).world.transportsOpened
        = 1 ∧
    (playExecute ⟨fun _ => none, 0, 0⟩ (some "g") "c" "x" true true).world.handlersConstructed
        = 1 ∧
    (playExecute ⟨fun _ => none, 0, 0⟩ (some "g") "c" "x" true true).itemsEnqueued
        = false := by decide

/-- C7 (amended): a `play` command whose locator fails `isValidUrl`
validation first creates and registers a session for the guild (opening
one Transport Session when none existed); the malformed locator is then
detected inside the serialized command, which enqueues nothing and
deletes the guild's registry entry — so the rejection happens after
session state is touched, and afterwards the registry again has no entry
for the guild. -/
theorem C7_invalid_locator_amended (w : World) (g cid url : String)
    (habs : w.reg g = none) (hurl : isValidUrlRegexStr url = false) :
    (playExecute w (some g) cid url true true).world.transportsOpened
        = w.transportsOpened + 1 ∧
    (playExecute w (some g) cid url true true).world.handlersConstructed
        = w.handlersConstructed + 1 ∧
    (playExecute w (some g) cid url true true).world.reg g = none ∧
    (playExecute w (some g) cid url true true).itemsEnqueued = false := by
  unfold playExecute getGuildAudioCommandHandler
  simp [habs, hurl, regSet, regDel]

/-- C7 witness: the malformed locator `"x"` against an empty registry. -/
theorem C7_invalid_locator_amended_witness :
    (playExecute ⟨fun _ => none, 2, 3⟩ (some "g") "c" "x" true true).world.transportsOpened
        = 2 + 1 ∧
    (playExecute ⟨fun _ => none, 2, 3⟩ (some "g") "c" "x" true true).world.handlersConstructed
        = 3 + 1 ∧
    (playExecute ⟨fun _ => none, 2, 3⟩ (some "g") "c" "x" true true).world.reg "g" = none ∧
    (playExecute ⟨fun _ => none, 2, 3⟩ (some "g") "c" "x" true true).itemsEnqueued = false :=
  C7_invalid_locator_amended ⟨fun _ => none, 2, 3⟩ "g" "c" "x" rfl (by decide)

/-- C9 counterexample: when both concurrent `play` commands pass the
registry lookup before either registers (both `await` their transport),
two Transport Sessions are opened, each command constructs its own
handler, and the second registration overwrites the first — refuting
"exactly one Transport Session is opened … the second command observes
and reuses the session created by the first". -/
theorem C9_race_counterexample :
    (runRace "g" "c" [true, false, true, true, false, false]).transportsOpened = 2 ∧
    (runRace "g" "c" [true, false, true, true, false, false]).pcA
        = .done (some ⟨"g", "c", true, 0⟩) ∧
    (runRace "g" "c" [true, false, true, true, false, false]).pcB
        = .done (some ⟨"g", "c", true, 1⟩) := by decide

theorem race_done_stable (g cid : String) (s : RaceState)
    (hA : ∃ x, s.pcA = .done x) (hB : ∃ y, s.pcB = .done y) :
    ∀ rest : List Bool, rest.foldl (fun s who => raceStep g cid who s) s = s := by
  intro rest
  induction rest with
  | nil => rfl
  | cons who rest ih =>
    obtain ⟨x, hx⟩ := hA
    obtain ⟨y, hy⟩ := hB
    have hstep : raceStep g cid who s = s := by
      cases who <;> simp [raceStep, hx, hy]
    simpa [hstep] using ih

/-- C9 (amended): the get-or-create of `getGuildAudioCommandHandler` is
atomic only when the second command's registry lookup happens after the
first command's registration: in that case exactly one Transport Session
is opened and the second command reuses the handler created by the first
(every schedule continuing afterwards leaves this state unchanged).
When both lookups precede either registration, two Transport Sessions
are opened and the second registration overwrites the first (see the
counterexample). -/
theorem C9_get_or_create_amended (g cid : String) (rest : List Bool) :
    (runRace g cid ([true, true, true, false] ++ rest)).transportsOpened = 1 ∧
    (runRace g cid ([true, true, true, false] ++ rest)).pcA
        = .done (some ⟨g, cid, true, 0⟩) ∧
    (runRace g cid ([true, true, true, false] ++ rest)).pcB
        = .done (some ⟨g, cid, true, 0⟩) := by
  have h4A : (runRace g cid [true, true, true, false]).pcA
      = .done (some ⟨g, cid, true, 0⟩) := by
    simp [runRace, raceStep, raceInit, regSet]
  have h4B : (runRace g cid [true, true, true, false]).pcB
      = .done (some ⟨g, cid, true, 0⟩) := by
    simp [runRace, raceStep, raceInit, regSet]
  have h4T : (runRace g cid [true, true, true, false]).transportsOpened = 1 := by
    simp [runRace, raceStep, raceInit, regSet]
  have hsplit : runRace g cid ([true, true, true, false] ++ rest)
      = rest.foldl (fun s who => raceStep g cid who s)
          (runRace g cid [true, true, true, false]) := by
    simp [runRace, List.foldl_append]
  rw [hsplit, race_done_stable g cid _ ⟨_, h4A⟩ ⟨_, h4B⟩ rest]
  exact ⟨h4T, h4A, h4B⟩

/-! ## `setOutputStreamUrl` (C8)

Two variants of `QueuedAudioItem` implement the operation.  The
`src/audio/queued-audio-item.ts` version always re-runs resolution; the
metadata-rich variant (`src/unnamed/part_002`) first checks
`isOutputUrlSet` and no-ops when the URL is populated.  The yt-dlp
invocation's stdout is a parameter; the returned triple is
(resulting item, no-throw flag, whether a resolution call was made). -/

/-- `String.trim` on the character list (ASCII whitespace suffices for
the modelled outputs). -/
def trimChars (s : List Char) : List Char :=
  ((s.dropWhile (fun c => c == Char.ofNat 32 || c == Char.ofNat 10 ||
      c == Char.ofNat 13 || c == Char.ofNat 9)).reverse.dropWhile
    (fun c => c == Char.ofNat 32 || c == Char.ofNat 10 ||
      c == Char.ofNat 13 || c == Char.ofNat 9)).reverse

/-- `fetchAudioStreamUrl` (identical control flow in both variants):
throws unless the input URL starts with `http`, the command produced
output, and the trimmed output starts with `http`. -/
def fetchAudioStreamUrl (stdout? : Option String) (url : String) :
    Except Unit String :=
  if !("http".data.isPrefixOf url.data) then .error ()
  else
    match stdout? with
    | none => .error ()
    | some out =>
      let t := trimChars out.data
      if !("http".data.isPrefixOf t) then .error ()
      else .ok (String.mk t)

namespace SrcAudio

/-- `QueuedAudioItem` of `src/audio/queued-audio-item.ts`. -/
structure QueuedAudioItem where
  UserInputUrl : String
  OutputStreamUrl : Option String
  timestamp : Nat
deriving DecidableEq

def isValidUrl (i : QueuedAudioItem) : Bool :=
  "http://".data.isPrefixOf i.UserInputUrl.data ||
  "https://".data.isPrefixOf i.UserInputUrl.data

def isYoutubeUrl (i : QueuedAudioItem) : Bool := isYoutubeUrlStr i.UserInputUrl

def isYoutubePlaylist (i : QueuedAudioItem) : Bool :=
  isYoutubePlaylistStr i.UserInputUrl

/-- `setOutputStreamUrl` of `src/audio/queued-audio-item.ts`: nulls the
URL on a non-video locator, otherwise always calls
`fetchAudioStreamUrl` and stores its result (no populated-check). -/
def setOutputStreamUrl (stdout? : Option String) (i : QueuedAudioItem) :
    QueuedAudioItem × Bool × Bool :=
  if !isValidUrl i || !isYoutubeUrl i || isYoutubePlaylist i then
    ({ i with OutputStreamUrl := none }, true, false)
  else
    match fetchAudioStreamUrl stdout? i.UserInputUrl with
    | .error _ => (i, false, true)
    | .ok out => ({ i with OutputStreamUrl := some out }, true, true)

end SrcAudio

namespace Part002

/-- `QueuedAudioItem` of `src/unnamed/part_002` (metadata fields that no
claim reads are omitted). -/
structure QueuedAudioItem where
  userInputUrl : String
  outputStreamUrl : Option String
  timestamp : Nat
  user : String
deriving DecidableEq

def isValidUrl (i : QueuedAudioItem) : Bool := isValidUrlRegexStr i.userInputUrl

def isYoutubeUrl (i : QueuedAudioItem) : Bool := isYoutubeUrlStr i.userInputUrl

def isYoutubePlaylist (i : QueuedAudioItem) : Bool :=
  isYoutubePlaylistStr i.userInputUrl

def isOutputUrlSet (i : QueuedAudioItem) : Bool := i.outputStreamUrl.isSome

/-- `setOutputStreamUrl` of `part_002`: nulls the URL on a non-video
locator; no-ops when the output URL is already set; otherwise resolves
via `fetchAudioStreamUrl`. -/
def setOutputStreamUrl (stdout? : Option String) (i : QueuedAudioItem) :
    QueuedAudioItem × Bool × Bool :=
  if !isValidUrl i || !isYoutubeUrl i || isYoutubePlaylist i then
    ({ i with outputStreamUrl := none }, true, false)
  else if isOutputUrlSet i then (i, true, false)
  else
    match fetchAudioStreamUrl stdout? i.userInputUrl with
    | .error _ => (i, false, true)
    | .ok out => ({ i with outputStreamUrl := some out }, true, true)

end Part002

/-- C8 counterexample: in the `src/audio/queued-audio-item.ts` version,
calling `setOutputStreamUrl` on a track whose stream URL is already
populated performs a resolution call and overwrites the stored URL —
refuting "calling it again performs no resolution and leaves the stored
stream URL unchanged". -/
theorem C8_idempotence_counterexample :
    (SrcAudio.setOutputStreamUrl (some "http://new")
        ⟨"https://youtu.be/a", some "http://old", 0⟩).2.2 = true ∧
    (SrcAudio.setOutputStreamUrl (some "http://new")
        ⟨"https://youtu.be/a", some "http://old", 0⟩).1.OutputStreamUrl
      = some "http://new" := by decide

/-- C8 (amended): the `part_002` variant of `setOutputStreamUrl` is
idempotent — on a valid single-video YouTube locator whose stream URL is
already populated it performs no resolution and returns the item
unchanged — while the `src/audio/queued-audio-item.ts` version always
performs a resolution call on such a locator, populated or not. -/
theorem C8_idempotence_amended :
    (∀ (stdout? : Option String) (i : Part002.QueuedAudioItem),
      Part002.isValidUrl i = true → Part002.isYoutubeUrl i = true →
      Part002.isYoutubePlaylist i = false → Part002.isOutputUrlSet i = true →
      Part002.setOutputStreamUrl stdout? i = (i, true, false)) ∧
    (∀ (stdout? : Option String) (i : SrcAudio.QueuedAudioItem),
      SrcAudio.isValidUrl i = true → SrcAudio.isYoutubeUrl i = true →
      SrcAudio.isYoutubePlaylist i = false →
      (SrcAudio.setOutputStreamUrl stdout? i).2.2 = true) := by
  constructor
  · intro stdout? i hv hy hp hset
    unfold Part002.setOutputStreamUrl
    rw [hv, hy, hp, hset]
    simp
  · intro stdout? i hv hy hp
    unfold SrcAudio.setOutputStreamUrl
    rw [hv, hy, hp]
    simp only [Bool.not_true, Bool.or_self, Bool.false_or, Bool.false_eq_true, if_false]
    rcases fetchAudioStreamUrl stdout? i.UserInputUrl with _ | out <;> simp

/-- C8 witness: a populated track is a no-op in the `part_002` variant
and triggers a resolution in the `src` variant. -/
theorem C8_idempotence_amended_witness :
    Part002.setOutputStreamUrl (some "http://new")
        ⟨"https://youtu.be/a", some "http://old", 0, "u"⟩
      = (⟨"https://youtu.be/a", some "http://old", 0, "u"⟩, true, false) ∧
    (SrcAudio.setOutputStreamUrl (some "http://new")
        ⟨"https://youtu.be/a", some "http://old", 0⟩).2.2 = true :=
  ⟨C8_idempotence_amended.1 (some "http://new") _ (by decide) (by decide) (by decide)
      (by decide),
   C8_idempotence_amended.2 (some "http://new") _ (by decide) (by decide) (by decide)⟩

/-- C10 counterexample: the string `"youtube.com/list=a\nb"` matches the
playlist regex — the negated class `[^#\&\?]` matches the newline — but
not the YouTube-URL regex, whose `.`+ cannot cross a line terminator; so
`isYoutubePlaylist` accepts a locator that `isYoutubeUrl` rejects,
refuting the claimed containment for every string. -/
theorem C10_playlist_subset_counterexample :
    isYoutubePlaylistStr "youtube.com/list=a\nb" = true ∧
    isYoutubeUrlStr "youtube.com/list=a\nb" = false := by decide

/-- C10 (amended): for every locator free of ECMAScript line terminators
(LF, CR, U+2028, U+2029) — which every realistic URL is — if
`isYoutubePlaylist(url)` returns `true` then `isYoutubeUrl(url)` also
returns `true`: on such strings the group-reference classifier accepts
only locators the supported-source classifier accepts. -/
theorem C10_playlist_subset_amended (s : String)
    (hnl : ∀ c ∈ s.data, jsDot c = true)
    (hp : isYoutubePlaylistStr s = true) : isYoutubeUrlStr s = true := by
  unfold isYoutubePlaylistStr playlistRegex at hp
  unfold isYoutubeUrlStr youtubeRegex
  rw [Reg.cat_rmatch_iff] at hp
  obtain ⟨u, v, hs, hu, hv⟩ := hp
  rw [Reg.cat_rmatch_iff]
  refine ⟨u, v, hs, hu, ?_⟩
  rw [Reg.cat_rmatch_iff] at hv
  obtain ⟨a, w, hvw, -, hw⟩ := hv
  rw [Reg.cat_rmatch_iff] at hw
  obtain ⟨l, z, hwz, hl, -⟩ := hw
  rw [Reg.litS, Reg.lit_rmatch_iff] at hl
  have hvchars : ∀ c ∈ v, jsDot c = true := by
    intro c hc
    apply hnl
    rw [hs]
    exact List.mem_append_right u hc
  have hvne : v ≠ [] := by
    rw [hvw, hwz, hl]
    intro hcon
    rcases List.append_eq_nil.mp hcon with ⟨-, h2⟩
    rcases List.append_eq_nil.mp h2 with ⟨h3, -⟩
    exact absurd h3 (by decide)
  rcases hv' : v with _ | ⟨c, v'⟩
  · exact absurd hv' hvne
  · rw [Reg.pls, Reg.cat_rmatch_iff]
    refine ⟨[c], v', rfl, ?_, ?_⟩
    · exact (Reg.cls_rmatch_iff _ _).mpr ⟨c, rfl, hvchars c (by rw [hv']; exact List.mem_cons_self _ _)⟩
    · exact Reg.star_cls_rmatch _ _
        (fun d hd => hvchars d (by rw [hv']; exact List.mem_cons_of_mem _ hd))

/-- C10 witness: a newline-free playlist locator accepted by both
classifiers. -/
theorem C10_playlist_subset_amended_witness :
    (∀ c ∈ ("youtube.com/list=ab" : String).data, jsDot c = true) ∧
    isYoutubePlaylistStr "youtube.com/list=ab" = true ∧
    isYoutubeUrlStr "youtube.com/list=ab" = true :=
  ⟨by decide, by decide, C10_playlist_subset_amended _ (by decide) (by decide)⟩

end CSBot
